import Mathlib

/-!
Verification of the SafeSphere safe-route engine and chat widget.

The route-engine definitions are shallow embeddings of the engine described
in the repository documentation (heatmap_adapter / road_graph / graph_utils);
the chat-widget definitions embed `script.js`. Real-valued quantities
(distances, risks, costs) are modelled over ℚ.
-/

namespace SafeSphere

/-! ## Cost function -/

/-- Modelled from the spec: the edge cost formula of `road_graph.py`
(absent from src/), `cost = distance × (1 + penaltyFactor × risk)`. -/
def edgeCostOf (distance penaltyFactor risk : ℚ) : ℚ :=
  distance * (1 + penaltyFactor * risk)

/-! ## Data model: nodes, edges, network -/

/-- Modelled from the spec: `RoadNode` of `road_graph.py` (absent from src/):
id (unique) and position. -/
structure RoadNode where
  id : ℕ
  pos : ℚ × ℚ
  deriving DecidableEq, Repr

/-- Modelled from the spec: `RoadEdge` of `road_graph.py` (absent from src/):
id, endpoint node ids, base distance, directed flag, current risk and the
derived cost. -/
structure RoadEdge where
  id : ℕ
  fromNode : ℕ
  toNode : ℕ
  distance : ℚ
  directed : Bool
  risk : ℚ
  cost : ℚ
  deriving DecidableEq, Repr

/-- Modelled from the spec: `RoadGraph` / WeightedRoadNetwork of
`road_graph.py` (absent from src/): nodes and edges keyed by id, an
adjacency index (node id → list of (neighbor id, edge id)), and a single
scalar penaltyFactor. -/
structure WeightedRoadNetwork where
  nodes : List RoadNode
  edges : List RoadEdge
  adjacency : List (ℕ × List (ℕ × ℕ))
  penaltyFactor : ℚ
  deriving DecidableEq, Repr

/-- Error kinds of the network layer, from the spec's §7 error model. -/
inductive NetError where
  | unknownEndpoint
  | duplicateId
  | unknownNode
  | noPathFound
  deriving DecidableEq, Repr

def hasNodeId (net : WeightedRoadNetwork) (i : ℕ) : Bool :=
  net.nodes.any (fun n => n.id == i)

def hasEdgeId (net : WeightedRoadNetwork) (i : ℕ) : Bool :=
  net.edges.any (fun e => e.id == i)

def findNode (net : WeightedRoadNetwork) (i : ℕ) : Option RoadNode :=
  net.nodes.find? (fun n => n.id == i)

def findEdge (net : WeightedRoadNetwork) (i : ℕ) : Option RoadEdge :=
  net.edges.find? (fun e => e.id == i)

/-- Append an adjacency entry `entry` to node `u`'s neighbor list. -/
def adjInsert (adj : List (ℕ × List (ℕ × ℕ))) (u : ℕ) (entry : ℕ × ℕ) :
    List (ℕ × List (ℕ × ℕ)) :=
  match adj with
  | [] => [(u, [entry])]
  | (v, l) :: rest =>
    if v = u then (v, l ++ [entry]) :: rest else (v, l) :: adjInsert rest u entry

/-- Modelled from the spec: `add_node` of `road_graph.py` (absent from src/):
fails DuplicateId if the id exists. -/
def addNode (net : WeightedRoadNetwork) (n : RoadNode) :
    Except NetError WeightedRoadNetwork :=
  if hasNodeId net n.id then .error .duplicateId
  else .ok { net with nodes := net.nodes ++ [n] }

/-- Modelled from the spec: `add_edge` of `road_graph.py` (absent from src/):
fails UnknownEndpoint if either endpoint is missing; fails DuplicateId if
the edge id exists; on success updates adjacency for both directions if
undirected. -/
def addEdge (net : WeightedRoadNetwork) (e : RoadEdge) :
    Except NetError WeightedRoadNetwork :=
  if hasNodeId net e.fromNode = false ∨ hasNodeId net e.toNode = false then
    .error .unknownEndpoint
  else if hasEdgeId net e.id then .error .duplicateId
  else
    let adj1 := adjInsert net.adjacency e.fromNode (e.toNode, e.id)
    let adj2 := if e.directed then adj1 else adjInsert adj1 e.toNode (e.fromNode, e.id)
    .ok { net with edges := net.edges ++ [e], adjacency := adj2 }

/-- The state transition of `addNode`: a failed add leaves the network as it was. -/
def addNodeStep (net : WeightedRoadNetwork) (n : RoadNode) : WeightedRoadNetwork :=
  match addNode net n with
  | .ok net2 => net2
  | .error _ => net

/-- The state transition of `addEdge`: a failed add leaves the network as it was. -/
def addEdgeStep (net : WeightedRoadNetwork) (e : RoadEdge) : WeightedRoadNetwork :=
  match addEdge net e with
  | .ok net2 => net2
  | .error _ => net

/-! ## RiskField -/

/-- Modelled from the spec: a node-keyed risk sample of `heatmap_adapter.py`
(absent from src/): id, position (x, y), risk value. -/
structure NodeRiskEntry where
  id : ℕ
  pos : ℚ × ℚ
  risk : ℚ
  deriving DecidableEq, Repr

/-- Modelled from the spec: an edge-keyed risk sample of `heatmap_adapter.py`
(absent from src/): id, endpoint node ids, risk value. -/
structure EdgeRiskEntry where
  id : ℕ
  fromNode : ℕ
  toNode : ℕ
  risk : ℚ
  deriving DecidableEq, Repr

/-- A backend risk snapshot: node samples and edge samples. -/
structure RiskSnapshot where
  nodes : List NodeRiskEntry
  edges : List EdgeRiskEntry
  deriving DecidableEq, Repr

/-- Modelled from the spec: the HeatmapAdapter / RiskField state of
`heatmap_adapter.py` (absent from src/): the currently loaded node and edge
risk samples. -/
structure RiskField where
  nodeSamples : List NodeRiskEntry
  edgeSamples : List EdgeRiskEntry
  deriving DecidableEq, Repr

/-- Error kinds of the risk layer, from the spec's §7 error model. -/
inductive RiskError where
  | invalidRisk
  | emptyField
  | unknownNode
  deriving DecidableEq, Repr

def validRisk (r : ℚ) : Bool :=
  decide (0 ≤ r ∧ r ≤ 1)

def snapshotValid (s : RiskSnapshot) : Bool :=
  s.nodes.all (fun n => validRisk n.risk) && s.edges.all (fun e => validRisk e.risk)

/-- Modelled from the spec: `load_heatmap` / RiskField.load of
`heatmap_adapter.py` (absent from src/): atomically replaces all node and
edge risk samples; fails InvalidRisk if any value is outside [0,1]. -/
def RiskField.load (rf : RiskField) (s : RiskSnapshot) :
    Except RiskError RiskField :=
  if snapshotValid s then .ok ⟨s.nodes, s.edges⟩ else .error .invalidRisk

/-- The state transition of `load`: a rejected snapshot leaves the previous
samples intact. -/
def RiskField.loadStep (rf : RiskField) (s : RiskSnapshot) : RiskField :=
  match rf.load s with
  | .ok rf2 => rf2
  | .error _ => rf

/-! ## Theorems: C1 (cost formula) -/

/-- Squared euclidean distance between two positions. -/
def distSq (a b : ℚ × ℚ) : ℚ :=
  (a.1 - b.1) ^ 2 + (a.2 - b.2) ^ 2

/-- The k nearest node samples to `pos`, by squared euclidean distance
(insertion sort is stable, so ties keep sample order). -/
def kNearest (samples : List NodeRiskEntry) (pos : ℚ × ℚ) (k : ℕ) :
    List NodeRiskEntry :=
  (samples.insertionSort (fun a b => distSq a.pos pos ≤ distSq b.pos pos)).take k

/-- Σ weight_i with weight_i = 1/distance_i², the default IDW exponent p = 2. -/
def idwWeightSum (samples : List NodeRiskEntry) (pos : ℚ × ℚ) : ℚ :=
  (samples.map (fun s => 1 / distSq s.pos pos)).sum

/-- Σ weight_i · risk_i with weight_i = 1/distance_i², the default p = 2. -/
def idwWeightedRiskSum (samples : List NodeRiskEntry) (pos : ℚ × ℚ) : ℚ :=
  (samples.map (fun s => s.risk / distSq s.pos pos)).sum

/-- Modelled from the spec: `get_interpolated_risk` of `heatmap_adapter.py`
(absent from src/): IDW over the k nearest node samples with weight
1/distance^p at the default p = 2 (so weight = 1/squared-distance); an exact
position match returns that sample's risk directly; fails EmptyField with no
samples. -/
def RiskField.getInterpolatedRisk (rf : RiskField) (pos : ℚ × ℚ) (k : ℕ := 3) :
    Except RiskError ℚ :=
  match rf.nodeSamples with
  | [] => .error .emptyField
  | s0 :: rest =>
    match (s0 :: rest).find? (fun s => distSq s.pos pos == 0) with
    | some s => .ok s.risk
    | none =>
      let near := kNearest (s0 :: rest) pos k
      .ok (idwWeightedRiskSum near pos / idwWeightSum near pos)

/-- Midpoint of an edge's two endpoint node positions (origin if an
endpoint is missing). -/
def edgeMidpoint (net : WeightedRoadNetwork) (e : RoadEdge) : ℚ × ℚ :=
  match findNode net e.fromNode, findNode net e.toNode with
  | some a, some b => ((a.pos.1 + b.pos.1) / 2, (a.pos.2 + b.pos.2) / 2)
  | _, _ => (0, 0)

/-- Modelled from the spec: risk resolution of `refreshRiskCosts` /
`load_heatmap_risks` of `road_graph.py` (absent from src/): an edge's own
sample if present, else the IDW-interpolated risk of its midpoint, else the
edge's previous risk. -/
def resolveEdgeRisk (net : WeightedRoadNetwork) (rf : RiskField) (e : RoadEdge) : ℚ :=
  match rf.edgeSamples.find? (fun s => s.id == e.id) with
  | some s => s.risk
  | none =>
    match rf.getInterpolatedRisk (edgeMidpoint net e) with
    | .ok r => r
    | .error _ => e.risk

/-- Modelled from the spec: `refreshRiskCosts` / `load_heatmap_risks` of
`road_graph.py` (absent from src/): recompute
`cost = distance × (1 + penaltyFactor × risk)` for every edge unconditionally. -/
def refreshRiskCosts (net : WeightedRoadNetwork) (rf : RiskField) :
    WeightedRoadNetwork :=
  { net with
    edges := net.edges.map (fun e =>
      let r := resolveEdgeRisk net rf e
      { e with risk := r, cost := edgeCostOf e.distance net.penaltyFactor r }) }

/-- Modelled from the spec: `update_risk_penalty_factor` of `road_graph.py`
(absent from src/): sets the scalar and recomputes every edge cost from the
edge's current risk. -/
def updateRiskPenaltyFactor (net : WeightedRoadNetwork) (value : ℚ) :
    WeightedRoadNetwork :=
  { net with
    penaltyFactor := value,
    edges := net.edges.map (fun e =>
      { e with cost := edgeCostOf e.distance value e.risk }) }

/-! ## Theorems: C1 (cost formula) and C5 (monotonicity in risk) -/

/-- C1: after any cost (re)computation — `refreshRiskCosts` or
`updateRiskPenaltyFactor` — every edge's cost equals
distance × (1 + penaltyFactor × risk); in particular an edge of distance 5
with risk 0.1 at penaltyFactor 50 has cost 30 and one with risk 0.5 has
cost 130. -/
theorem cost_formula_holds_after_recompute :
    (∀ (net : WeightedRoadNetwork) (rf : RiskField) (e : RoadEdge),
      e ∈ (refreshRiskCosts net rf).edges →
        e.cost = e.distance * (1 + net.penaltyFactor * e.risk)) ∧
    (∀ (net : WeightedRoadNetwork) (v : ℚ) (e : RoadEdge),
      e ∈ (updateRiskPenaltyFactor net v).edges →
        e.cost = e.distance * (1 + v * e.risk)) ∧
    edgeCostOf 5 50 (1/10) = 30 ∧ edgeCostOf 5 50 (1/2) = 130 := by
  refine ⟨?_, ?_, by unfold edgeCostOf; norm_num, by unfold edgeCostOf; norm_num⟩
  · intro net rf e he
    simp only [refreshRiskCosts, List.mem_map] at he
    obtain ⟨a, _, rfl⟩ := he
    rfl
  · intro net v e he
    simp only [updateRiskPenaltyFactor, List.mem_map] at he
    obtain ⟨a, _, rfl⟩ := he
    rfl

/-- The single-edge network used to evaluate the cost formula concretely. -/
def exampleRefreshNet : WeightedRoadNetwork :=
  { nodes := [⟨0, (0, 0)⟩, ⟨1, (5, 0)⟩],
    edges := [⟨10, 0, 1, 5, false, 0, 0⟩],
    adjacency := [(0, [(1, 10)]), (1, [(0, 10)])],
    penaltyFactor := 50 }

/-- The risk field giving the single edge of `exampleRefreshNet` risk 0.1. -/
def exampleRefreshField : RiskField :=
  { nodeSamples := [], edgeSamples := [⟨10, 0, 1, 1/10⟩] }

/-- Witness for C1: the concrete edge of distance 5 and risk 0.1 at
penalty 50 is in the refreshed network and its cost is 30. -/
theorem cost_formula_holds_after_recompute_witness :
    (⟨10, 0, 1, 5, false, 1/10, 30⟩ : RoadEdge) ∈
        (refreshRiskCosts exampleRefreshNet exampleRefreshField).edges ∧
      (⟨10, 0, 1, 5, false, 1/10, 30⟩ : RoadEdge).cost =
        (5 : ℚ) * (1 + (50 : ℚ) * (1/10)) := by
  have hedges : (refreshRiskCosts exampleRefreshNet exampleRefreshField).edges =
      [⟨10, 0, 1, 5, false, 1/10, 30⟩] := by
    norm_num [refreshRiskCosts, exampleRefreshNet, exampleRefreshField,
      resolveEdgeRisk, edgeCostOf, List.find?]
  have hmem : (⟨10, 0, 1, 5, false, 1/10, 30⟩ : RoadEdge) ∈
      (refreshRiskCosts exampleRefreshNet exampleRefreshField).edges := by
    rw [hedges]; exact List.mem_singleton.mpr rfl
  exact ⟨hmem, cost_formula_holds_after_recompute.1 exampleRefreshNet
    exampleRefreshField _ hmem⟩

/-- C5: the cost function is monotonic in risk — for distance > 0,
penaltyFactor ≥ 0 and risks r1 ≤ r2 in [0,1], the cost at r1 is at most the
cost at r2. -/
theorem cost_monotone_in_risk (d p r1 r2 : ℚ) (hd : 0 < d) (hp : 0 ≤ p)
    (h0 : 0 ≤ r1) (h12 : r1 ≤ r2) (h1 : r2 ≤ 1) :
    edgeCostOf d p r1 ≤ edgeCostOf d p r2 := by
  unfold edgeCostOf
  have : p * r1 ≤ p * r2 := mul_le_mul_of_nonneg_left h12 hp
  nlinarith

/-- Witness for C5 at distance 5, penalty 50, risks 0.1 ≤ 0.5. -/
theorem cost_monotone_in_risk_witness :
    edgeCostOf 5 50 (1/10) ≤ edgeCostOf 5 50 (1/2) :=
  cost_monotone_in_risk 5 50 (1/10) (1/2) (by norm_num) (by norm_num)
    (by norm_num) (by norm_num) (by norm_num)

/-! ## Theorems: C3 (IDW interpolation) -/

/-- The two-sample risk field of the spec's IDW scenario:
(0,0) risk 0.2 and (10,0) risk 0.8. -/
def exampleIDWField : RiskField :=
  { nodeSamples := [⟨0, (0, 0), 1/5⟩, ⟨1, (10, 0), 4/5⟩], edgeSamples := [] }

/-- C3: `getInterpolatedRisk` fails EmptyField on an empty field, returns a
sample's risk directly on an exact position match, otherwise returns
Σ(weight·risk)/Σ(weight) over the k nearest samples with weight =
1/distance² (the default p = 2); on the two-sample example field the query
at (5,0) gives 0.5 and the query at (0,0) gives exactly 0.2. -/
theorem interpolated_risk_idw :
    (∀ (rf : RiskField) (pos : ℚ × ℚ) (k : ℕ), rf.nodeSamples = [] →
      rf.getInterpolatedRisk pos k = .error .emptyField) ∧
    (∀ (rf : RiskField) (pos : ℚ × ℚ) (k : ℕ) (s0 : NodeRiskEntry)
        (rest : List NodeRiskEntry) (s : NodeRiskEntry),
      rf.nodeSamples = s0 :: rest →
      (s0 :: rest).find? (fun t => distSq t.pos pos == 0) = some s →
        rf.getInterpolatedRisk pos k = .ok s.risk) ∧
    (∀ (rf : RiskField) (pos : ℚ × ℚ) (k : ℕ) (s0 : NodeRiskEntry)
        (rest : List NodeRiskEntry),
      rf.nodeSamples = s0 :: rest →
      (s0 :: rest).find? (fun t => distSq t.pos pos == 0) = none →
        rf.getInterpolatedRisk pos k =
          .ok (idwWeightedRiskSum (kNearest (s0 :: rest) pos k) pos /
               idwWeightSum (kNearest (s0 :: rest) pos k) pos)) ∧
    exampleIDWField.getInterpolatedRisk (5, 0) = .ok (1/2) ∧
    exampleIDWField.getInterpolatedRisk (0, 0) = .ok (1/5) := by
  refine ⟨?_, ?_, ?_, ?_, ?_⟩
  · intro rf pos k h
    unfold RiskField.getInterpolatedRisk
    rw [h]
  · intro rf pos k s0 rest s hs hfind
    simp only [RiskField.getInterpolatedRisk, hs]
    rw [hfind]
  · intro rf pos k s0 rest hs hfind
    simp only [RiskField.getInterpolatedRisk, hs]
    rw [hfind]
  · have b1 : ((25 : ℚ) == 0) = false := beq_eq_false_iff_ne.mpr (by norm_num)
    norm_num [RiskField.getInterpolatedRisk, exampleIDWField, List.find?,
      distSq, b1, kNearest, idwWeightedRiskSum, idwWeightSum,
      List.insertionSort, List.orderedInsert]
  · have b2 : ((0 : ℚ) == 0) = true := beq_self_eq_true 0
    norm_num [RiskField.getInterpolatedRisk, exampleIDWField, List.find?,
      distSq, b2]

/-- Witness for C3: the empty field fails EmptyField at a concrete query,
by the first clause of the theorem. -/
theorem interpolated_risk_idw_witness :
    (RiskField.mk [] []).getInterpolatedRisk (3, 4) 3 = .error .emptyField :=
  interpolated_risk_idw.1 (RiskField.mk [] []) (3, 4) 3 rfl

/-! ## Theorems: C6 (atomic load) -/

/-- C6: `load` is all-or-nothing — a snapshot containing any risk outside
[0,1] is rejected with InvalidRisk and the previous node and edge samples
are left entirely intact, while a valid snapshot wholesale-replaces the
samples. -/
theorem load_all_or_nothing :
    (∀ (rf : RiskField) (s : RiskSnapshot),
      ((∃ n ∈ s.nodes, ¬(0 ≤ n.risk ∧ n.risk ≤ 1)) ∨
       (∃ e ∈ s.edges, ¬(0 ≤ e.risk ∧ e.risk ≤ 1))) →
        rf.load s = .error .invalidRisk ∧
        (rf.loadStep s).nodeSamples = rf.nodeSamples ∧
        (rf.loadStep s).edgeSamples = rf.edgeSamples) ∧
    (∀ (rf : RiskField) (s : RiskSnapshot),
      (∀ n ∈ s.nodes, 0 ≤ n.risk ∧ n.risk ≤ 1) →
      (∀ e ∈ s.edges, 0 ≤ e.risk ∧ e.risk ≤ 1) →
        rf.load s = .ok ⟨s.nodes, s.edges⟩) := by
  constructor
  · intro rf s hbad
    have hvalid : snapshotValid s = false := by
      unfold snapshotValid
      rcases hbad with ⟨n, hn, hbadn⟩ | ⟨e, he, hbade⟩
      · have : s.nodes.all (fun n => validRisk n.risk) = false := by
          rw [List.all_eq_false]
          exact ⟨n, hn, by simp [validRisk, hbadn]⟩
        simp [this]
      · have : s.edges.all (fun e => validRisk e.risk) = false := by
          rw [List.all_eq_false]
          exact ⟨e, he, by simp [validRisk, hbade]⟩
        simp [this]
    have hload : rf.load s = .error .invalidRisk := by
      unfold RiskField.load
      rw [hvalid]
      rfl
    refine ⟨hload, ?_, ?_⟩ <;> unfold RiskField.loadStep <;> rw [hload]
  · intro rf s hn he
    have hvalid : snapshotValid s = true := by
      unfold snapshotValid
      simp only [List.all_eq_true, validRisk, decide_eq_true_eq, Bool.and_eq_true]
      exact ⟨hn, he⟩
    unfold RiskField.load
    rw [hvalid]
    rfl

/-- Witness for C6: a snapshot holding risk 2 is rejected and leaves the
example field's samples intact. -/
theorem load_all_or_nothing_witness :
    exampleIDWField.load ⟨[⟨7, (0, 0), 2⟩], []⟩ = .error .invalidRisk ∧
      (exampleIDWField.loadStep ⟨[⟨7, (0, 0), 2⟩], []⟩).nodeSamples =
        exampleIDWField.nodeSamples ∧
      (exampleIDWField.loadStep ⟨[⟨7, (0, 0), 2⟩], []⟩).edgeSamples =
        exampleIDWField.edgeSamples :=
  load_all_or_nothing.1 exampleIDWField ⟨[⟨7, (0, 0), 2⟩], []⟩
    (Or.inl ⟨⟨7, (0, 0), 2⟩, List.mem_singleton.mpr rfl, by norm_num⟩)

/-! ## Theorems: C7 (addEdge error handling and frame) -/

/-- C7: `addEdge` with a missing endpoint fails UnknownEndpoint and leaves
the node collection, edge collection and adjacency index unchanged; with
both endpoints present but a duplicate edge id it fails DuplicateId (and
likewise changes nothing). -/
theorem addEdge_unknown_endpoint_frame :
    (∀ (net : WeightedRoadNetwork) (e : RoadEdge),
      (hasNodeId net e.fromNode = false ∨ hasNodeId net e.toNode = false) →
        addEdge net e = .error .unknownEndpoint ∧
        (addEdgeStep net e).nodes = net.nodes ∧
        (addEdgeStep net e).edges = net.edges ∧
        (addEdgeStep net e).adjacency = net.adjacency) ∧
    (∀ (net : WeightedRoadNetwork) (e : RoadEdge),
      hasNodeId net e.fromNode = true → hasNodeId net e.toNode = true →
      hasEdgeId net e.id = true →
        addEdge net e = .error .duplicateId ∧
        (addEdgeStep net e).nodes = net.nodes ∧
        (addEdgeStep net e).edges = net.edges ∧
        (addEdgeStep net e).adjacency = net.adjacency) := by
  constructor
  · intro net e hmiss
    have herr : addEdge net e = .error .unknownEndpoint := by
      unfold addEdge
      rw [if_pos hmiss]
    refine ⟨herr, ?_, ?_, ?_⟩ <;> unfold addEdgeStep <;> rw [herr]
  · intro net e hf ht hdup
    have herr : addEdge net e = .error .duplicateId := by
      unfold addEdge
      rw [if_neg (by simp [hf, ht]), if_pos hdup]
    refine ⟨herr, ?_, ?_, ?_⟩ <;> unfold addEdgeStep <;> rw [herr]

/-- Witness for C7: on the concrete example network, an edge referencing the
absent node 9 is rejected with UnknownEndpoint and the network is unchanged,
and re-adding edge id 10 between the existing nodes is rejected with
DuplicateId. -/
theorem addEdge_unknown_endpoint_frame_witness :
    (addEdge exampleRefreshNet ⟨11, 0, 9, 1, false, 0, 0⟩ =
        .error .unknownEndpoint ∧
      (addEdgeStep exampleRefreshNet ⟨11, 0, 9, 1, false, 0, 0⟩).nodes =
        exampleRefreshNet.nodes ∧
      (addEdgeStep exampleRefreshNet ⟨11, 0, 9, 1, false, 0, 0⟩).edges =
        exampleRefreshNet.edges ∧
      (addEdgeStep exampleRefreshNet ⟨11, 0, 9, 1, false, 0, 0⟩).adjacency =
        exampleRefreshNet.adjacency) ∧
    addEdge exampleRefreshNet ⟨10, 0, 1, 2, false, 0, 0⟩ =
        .error .duplicateId :=
  ⟨addEdge_unknown_endpoint_frame.1 exampleRefreshNet ⟨11, 0, 9, 1, false, 0, 0⟩
      (Or.inr rfl),
   (addEdge_unknown_endpoint_frame.2 exampleRefreshNet ⟨10, 0, 1, 2, false, 0, 0⟩
      rfl rfl rfl).1⟩

/-! ## Serialization: exportSnapshot / importSnapshot -/

/-- Topology serialization format from the spec's §6:
`{nodes: [...], edges: [...], penaltyFactor}`. -/
structure NetworkSnapshot where
  nodes : List RoadNode
  edges : List RoadEdge
  penaltyFactor : ℚ
  deriving DecidableEq, Repr

/-- Modelled from the spec: `export_to_dict` / exportSnapshot of
`road_graph.py` (absent from src/): full serialization of nodes, edges and
penaltyFactor. -/
def exportSnapshot (net : WeightedRoadNetwork) : NetworkSnapshot :=
  ⟨net.nodes, net.edges, net.penaltyFactor⟩

/-- A fresh network with no nodes, edges or adjacency. -/
def emptyNetwork (pf : ℚ) : WeightedRoadNetwork :=
  ⟨[], [], [], pf⟩

/-- Modelled from the spec: `import_from_dict` / importSnapshot of
`road_graph.py` (absent from src/): rebuild a fresh network by replaying
`add_node` over the snapshot's nodes and `add_edge` over its edges. -/
def importSnapshot (snap : NetworkSnapshot) : WeightedRoadNetwork :=
  snap.edges.foldl addEdgeStep
    (snap.nodes.foldl addNodeStep (emptyNetwork snap.penaltyFactor))

theorem hasNodeId_eq_true_iff (net : WeightedRoadNetwork) (i : ℕ) :
    hasNodeId net i = true ↔ i ∈ net.nodes.map RoadNode.id := by
  simp only [hasNodeId, List.any_eq_true, beq_iff_eq, List.mem_map]

theorem hasEdgeId_eq_true_iff (net : WeightedRoadNetwork) (i : ℕ) :
    hasEdgeId net i = true ↔ i ∈ net.edges.map RoadEdge.id := by
  simp only [hasEdgeId, List.any_eq_true, beq_iff_eq, List.mem_map]

/-- Replaying `addNode` over nodes whose ids are fresh and mutually distinct
appends exactly those nodes and touches nothing else. -/
theorem foldl_addNodeStep_spec (ns : List RoadNode) :
    ∀ net : WeightedRoadNetwork,
      (ns.map RoadNode.id).Nodup →
      (∀ n ∈ ns, n.id ∉ net.nodes.map RoadNode.id) →
      (ns.foldl addNodeStep net).nodes = net.nodes ++ ns ∧
      (ns.foldl addNodeStep net).edges = net.edges ∧
      (ns.foldl addNodeStep net).adjacency = net.adjacency ∧
      (ns.foldl addNodeStep net).penaltyFactor = net.penaltyFactor := by
  induction ns with
  | nil => intro net _ _; simp
  | cons n ns ih =>
    intro net hnodup hdisj
    have hfresh : hasNodeId net n.id = false := by
      rw [Bool.eq_false_iff]
      intro htrue
      exact hdisj n (List.mem_cons_self n ns) ((hasNodeId_eq_true_iff net n.id).mp htrue)
    have hstep : addNodeStep net n = { net with nodes := net.nodes ++ [n] } := by
      unfold addNodeStep addNode
      rw [hfresh]
      rfl
    have hnodup2 : (ns.map RoadNode.id).Nodup := (List.nodup_cons.mp hnodup).2
    have hhead : n.id ∉ ns.map RoadNode.id := (List.nodup_cons.mp hnodup).1
    have hdisj2 : ∀ m ∈ ns, m.id ∉
        ({ net with nodes := net.nodes ++ [n] } : WeightedRoadNetwork).nodes.map
          RoadNode.id := by
      intro m hm
      simp only [List.map_append, List.mem_append, List.map_cons, List.map_nil,
        List.mem_singleton]
      rintro (hold | hnew)
      · exact hdisj m (List.mem_cons_of_mem n hm) hold
      · exact hhead (hnew ▸ List.mem_map_of_mem RoadNode.id hm)
    have := ih { net with nodes := net.nodes ++ [n] } hnodup2 hdisj2
    simpa [List.foldl_cons, hstep, List.append_assoc] using this

/-- Replaying `addEdge` over edges whose ids are fresh and mutually distinct
and whose endpoints are all present appends exactly those edges, leaving
nodes and the penalty factor unchanged. -/
theorem foldl_addEdgeStep_spec (es : List RoadEdge) :
    ∀ net : WeightedRoadNetwork,
      (es.map RoadEdge.id).Nodup →
      (∀ e ∈ es, e.id ∉ net.edges.map RoadEdge.id) →
      (∀ e ∈ es, e.fromNode ∈ net.nodes.map RoadNode.id ∧
                 e.toNode ∈ net.nodes.map RoadNode.id) →
      (es.foldl addEdgeStep net).edges = net.edges ++ es ∧
      (es.foldl addEdgeStep net).nodes = net.nodes ∧
      (es.foldl addEdgeStep net).penaltyFactor = net.penaltyFactor := by
  induction es with
  | nil => intro net _ _ _; simp
  | cons e es ih =>
    intro net hnodup hdisj hend
    have hfrom : hasNodeId net e.fromNode = true :=
      (hasNodeId_eq_true_iff net e.fromNode).mpr (hend e (List.mem_cons_self e es)).1
    have hto : hasNodeId net e.toNode = true :=
      (hasNodeId_eq_true_iff net e.toNode).mpr (hend e (List.mem_cons_self e es)).2
    have hfresh : hasEdgeId net e.id = false := by
      rw [Bool.eq_false_iff]
      intro htrue
      exact hdisj e (List.mem_cons_self e es) ((hasEdgeId_eq_true_iff net e.id).mp htrue)
    have hstep : addEdgeStep net e =
        { net with
          edges := net.edges ++ [e],
          adjacency :=
            let adj1 := adjInsert net.adjacency e.fromNode (e.toNode, e.id)
            if e.directed then adj1
            else adjInsert adj1 e.toNode (e.fromNode, e.id) } := by
      unfold addEdgeStep addEdge
      rw [if_neg (by simp [hfrom, hto]), hfresh]
      rfl
    set net2 : WeightedRoadNetwork :=
      { net with
        edges := net.edges ++ [e],
        adjacency :=
          let adj1 := adjInsert net.adjacency e.fromNode (e.toNode, e.id)
          if e.directed then adj1
          else adjInsert adj1 e.toNode (e.fromNode, e.id) } with hnet2
    have hnodup2 : (es.map RoadEdge.id).Nodup := (List.nodup_cons.mp hnodup).2
    have hhead : e.id ∉ es.map RoadEdge.id := (List.nodup_cons.mp hnodup).1
    have hdisj2 : ∀ f ∈ es, f.id ∉ net2.edges.map RoadEdge.id := by
      intro f hf
      simp only [hnet2, List.map_append, List.mem_append, List.map_cons,
        List.map_nil, List.mem_singleton]
      rintro (hold | hnew)
      · exact hdisj f (List.mem_cons_of_mem e hf) hold
      · exact hhead (hnew ▸ List.mem_map_of_mem RoadEdge.id hf)
    have hend2 : ∀ f ∈ es, f.fromNode ∈ net2.nodes.map RoadNode.id ∧
        f.toNode ∈ net2.nodes.map RoadNode.id := by
      intro f hf
      exact hend f (List.mem_cons_of_mem e hf)
    have := ih net2 hnodup2 hdisj2 hend2
    have hfold : (e :: es).foldl addEdgeStep net = es.foldl addEdgeStep net2 := by
      rw [List.foldl_cons, hstep]
    rw [hfold]
    refine ⟨?_, this.2.1, this.2.2⟩
    rw [this.1]
    simp [hnet2, List.append_assoc]

/-! ## Theorems: C8 (serialization round trip) -/

/-- C8: for every network satisfying the data-model invariants (unique node
ids, unique edge ids, endpoints present), `exportSnapshot` followed by
`importSnapshot` on a fresh network reproduces an identical node set,
identical edge set, identical penaltyFactor and identical per-edge costs. -/
theorem export_import_roundtrip (net : WeightedRoadNetwork)
    (hn : (net.nodes.map RoadNode.id).Nodup)
    (he : (net.edges.map RoadEdge.id).Nodup)
    (hend : ∀ e ∈ net.edges, e.fromNode ∈ net.nodes.map RoadNode.id ∧
            e.toNode ∈ net.nodes.map RoadNode.id) :
    (importSnapshot (exportSnapshot net)).nodes = net.nodes ∧
    (importSnapshot (exportSnapshot net)).edges = net.edges ∧
    (importSnapshot (exportSnapshot net)).penaltyFactor = net.penaltyFactor ∧
    (importSnapshot (exportSnapshot net)).edges.map RoadEdge.cost =
      net.edges.map RoadEdge.cost := by
  have hnodes := foldl_addNodeStep_spec net.nodes
    (emptyNetwork net.penaltyFactor) hn (by intro n _; simp [emptyNetwork])
  set mid : WeightedRoadNetwork :=
    net.nodes.foldl addNodeStep (emptyNetwork net.penaltyFactor) with hmid
  have hmidnodes : mid.nodes = net.nodes := by
    rw [hnodes.1]; simp [emptyNetwork]
  have hmidedges : mid.edges = [] := by
    rw [hnodes.2.1]; rfl
  have hmidpf : mid.penaltyFactor = net.penaltyFactor := by
    rw [hnodes.2.2.2]; rfl
  have hedges := foldl_addEdgeStep_spec net.edges mid he
    (by intro e _; rw [hmidedges]; simp)
    (by intro e hee; rw [hmidnodes]; exact hend e hee)
  have himp : importSnapshot (exportSnapshot net) = net.edges.foldl addEdgeStep mid := rfl
  rw [himp]
  refine ⟨hedges.2.1.trans hmidnodes, ?_, hedges.2.2.trans hmidpf, ?_⟩
  · rw [hedges.1, hmidedges]; rfl
  · rw [hedges.1, hmidedges]; rfl

/-- Witness for C8: the round trip on the concrete example network. -/
theorem export_import_roundtrip_witness :
    (importSnapshot (exportSnapshot exampleRefreshNet)).nodes =
        exampleRefreshNet.nodes ∧
      (importSnapshot (exportSnapshot exampleRefreshNet)).edges =
        exampleRefreshNet.edges ∧
      (importSnapshot (exportSnapshot exampleRefreshNet)).penaltyFactor =
        exampleRefreshNet.penaltyFactor ∧
      (importSnapshot (exportSnapshot exampleRefreshNet)).edges.map RoadEdge.cost =
        exampleRefreshNet.edges.map RoadEdge.cost :=
  export_import_roundtrip exampleRefreshNet
    (by simp [exampleRefreshNet])
    (by simp [exampleRefreshNet])
    (by intro e hee
        simp only [exampleRefreshNet, List.mem_singleton] at hee
        subst hee
        simp [exampleRefreshNet])

/-! ## Route planning: simple-path enumeration and kSafestPaths -/

/-- Adjacency lookup: the (neighbor id, edge id) list of a node. -/
def neighbors (net : WeightedRoadNetwork) (u : ℕ) : List (ℕ × ℕ) :=
  match net.adjacency.find? (fun p => p.1 == u) with
  | some p => p.2
  | none => []

/-- The cheapest current cost of an edge from `u` to `v` (0 if none). -/
def minEdgeCostBetween (net : WeightedRoadNetwork) (u v : ℕ) : ℚ :=
  let costs := (neighbors net u).filterMap (fun p =>
    if p.1 == v then (findEdge net p.2).map RoadEdge.cost else none)
  match costs with
  | [] => 0
  | c :: cs => cs.foldl min c

/-- Total cost of a node sequence: sum of cheapest edge costs between
consecutive nodes. -/
def pathCost (net : WeightedRoadNetwork) : List ℕ → ℚ
  | [] => 0
  | [_] => 0
  | u :: v :: rest => minEdgeCostBetween net u v + pathCost net (v :: rest)

/-- All simple paths from `u` to `t` avoiding `visited`, with a fuel bound
of one node per recursion level. -/
def simplePathsAux (net : WeightedRoadNetwork) (t : ℕ) :
    ℕ → ℕ → List ℕ → List (List ℕ)
  | 0, _, _ => []
  | fuel + 1, u, visited =>
    if u = t then [[t]]
    else
      ((neighbors net u).filter (fun p => !(visited.contains p.1))).flatMap
        (fun p => (simplePathsAux net t fuel p.1 (p.1 :: visited)).map
          (fun q => u :: q))

/-- The distinct simple paths from `s` to `t` (a simple path has at most
one node per network node, so the fuel bound is the node count plus one). -/
def simplePaths (net : WeightedRoadNetwork) (s t : ℕ) : List (List ℕ) :=
  (simplePathsAux net t (net.nodes.length + 1) s [s]).dedup

/-- Modelled from the spec: `find_k_safest_paths` of `graph_utils.py`
(absent from src/). The spec describes Yen's k-shortest loopless paths;
its observable result — the k lowest-cost distinct simple paths in
non-decreasing cost order, fewer when fewer exist — is modelled directly:
sort the distinct simple paths by total cost (insertion sort, stable, so
ties keep enumeration order) and keep the first k with their costs. -/
def kSafestPaths (net : WeightedRoadNetwork) (s t : ℕ) (k : ℕ) :
    List (List ℕ × ℚ) :=
  let sorted := (simplePaths net s t).insertionSort
    (fun a b => pathCost net a ≤ pathCost net b)
  (sorted.take k).map (fun p => (p, pathCost net p))

/-! ## Theorems: C2 (kSafestPaths) -/

/-- C2: `kSafestPaths` returns total costs in non-decreasing order, no two
result paths share a node sequence, the result length is min(k, number of
distinct simple paths) — so asking for more paths than exist returns all
existing ones, not an error — and on the concrete one-path network a query
with k = 2 returns exactly 1 result. -/
theorem kSafestPaths_sorted_nodup_total :
    (∀ (net : WeightedRoadNetwork) (s t k : ℕ),
      (kSafestPaths net s t k).Pairwise (fun a b => a.2 ≤ b.2)) ∧
    (∀ (net : WeightedRoadNetwork) (s t k : ℕ),
      ((kSafestPaths net s t k).map Prod.fst).Nodup) ∧
    (∀ (net : WeightedRoadNetwork) (s t k : ℕ),
      (kSafestPaths net s t k).length = min k (simplePaths net s t).length) ∧
    (∀ (net : WeightedRoadNetwork) (s t k : ℕ),
      (simplePaths net s t).length ≤ k →
        ((kSafestPaths net s t k).map Prod.fst).Perm (simplePaths net s t)) ∧
    (kSafestPaths exampleRefreshNet 0 1 2).length = 1 := by
  have hmapfst : ∀ (net : WeightedRoadNetwork) (l : List (List ℕ)),
      (l.map (fun p => (p, pathCost net p))).map Prod.fst = l := by
    intro net l
    rw [List.map_map]
    exact List.map_id l
  refine ⟨?_, ?_, ?_, ?_, ?_⟩
  · intro net s t k
    haveI : IsTotal (List ℕ) (fun a b => pathCost net a ≤ pathCost net b) :=
      ⟨fun a b => le_total _ _⟩
    haveI : IsTrans (List ℕ) (fun a b => pathCost net a ≤ pathCost net b) :=
      ⟨fun _ _ _ hab hbc => le_trans hab hbc⟩
    have hs := List.sorted_insertionSort
      (fun a b => pathCost net a ≤ pathCost net b) (simplePaths net s t)
    have htake := List.Pairwise.sublist (List.take_sublist k _) hs
    unfold kSafestPaths
    rw [List.pairwise_map]
    exact htake
  · intro net s t k
    unfold kSafestPaths
    rw [hmapfst]
    refine List.Nodup.sublist (List.take_sublist k _) ?_
    exact ((List.perm_insertionSort _ _).symm).nodup (List.nodup_dedup _)
  · intro net s t k
    unfold kSafestPaths
    rw [List.length_map, List.length_take, List.length_insertionSort]
  · intro net s t k hlen
    unfold kSafestPaths
    rw [hmapfst]
    have hall : ((simplePaths net s t).insertionSort
        (fun a b => pathCost net a ≤ pathCost net b)).take k =
        (simplePaths net s t).insertionSort
          (fun a b => pathCost net a ≤ pathCost net b) := by
      apply List.take_of_length_le
      rw [List.length_insertionSort]
      exact hlen
    rw [hall]
    exact List.perm_insertionSort _ _
  · rfl

/-- Witness for C2: the one-path network has a single distinct simple path,
so `kSafestPaths` with k = 2 returns all of them (a permutation of the full
path list), by the fourth clause. -/
theorem kSafestPaths_sorted_nodup_total_witness :
    (simplePaths exampleRefreshNet 0 1).length ≤ 2 ∧
      ((kSafestPaths exampleRefreshNet 0 1 2).map Prod.fst).Perm
        (simplePaths exampleRefreshNet 0 1) :=
  ⟨by decide, kSafestPaths_sorted_nodup_total.2.2.2.1 exampleRefreshNet 0 1 2
    (by decide)⟩

/-! ## Route planning: Dijkstra with deterministic tie-breaking -/

/-- A frontier candidate of the Dijkstra search: accumulated cost, current
node, accumulated risk, and the path so far in reverse. -/
structure FrontierEntry where
  cost : ℚ
  node : ℕ
  riskSum : ℚ
  revPath : List ℕ
  deriving DecidableEq, Repr

/-- The frontier priority order: lower cost first, ties broken by lower
node id. -/
def FrontLe (a b : FrontierEntry) : Prop :=
  a.cost < b.cost ∨ (a.cost = b.cost ∧ a.node ≤ b.node)

instance decFrontLe (a b : FrontierEntry) : Decidable (FrontLe a b) := by
  unfold FrontLe
  infer_instance

theorem frontLe_refl (a : FrontierEntry) : FrontLe a a :=
  Or.inr ⟨rfl, le_refl _⟩

theorem frontLe_trans {a b c : FrontierEntry} (h1 : FrontLe a b)
    (h2 : FrontLe b c) : FrontLe a c := by
  rcases h1 with h1 | ⟨h1, h1n⟩ <;> rcases h2 with h2 | ⟨h2, h2n⟩
  · exact Or.inl (h1.trans h2)
  · exact Or.inl (h2 ▸ h1)
  · exact Or.inl (h1 ▸ h2)
  · exact Or.inr ⟨h1.trans h2, h1n.trans h2n⟩

theorem frontLe_of_not {a b : FrontierEntry} (h : ¬ FrontLe a b) : FrontLe b a := by
  unfold FrontLe at *
  push_neg at h
  rcases lt_trichotomy b.cost a.cost with hlt | heq | hgt
  · exact Or.inl hlt
  · exact Or.inr ⟨heq, le_of_lt (h.2 heq.symm)⟩
  · exact absurd hgt (not_lt.mpr h.1)

/-- Extract the frontier entry minimal in (cost, node id) and return the
remaining frontier. -/
def selectMin : List FrontierEntry → Option (FrontierEntry × List FrontierEntry)
  | [] => none
  | e :: es =>
    match selectMin es with
    | none => some (e, [])
    | some (m, rest) =>
      if FrontLe e m then some (e, es) else some (m, e :: rest)

theorem selectMin_eq_none (l : List FrontierEntry) :
    selectMin l = none ↔ l = [] := by
  cases l with
  | nil => simp [selectMin]
  | cons e es =>
    simp only [selectMin, List.cons_ne_nil, iff_false]
    cases h2 : selectMin es with
    | none => simp
    | some v =>
      obtain ⟨m2, rest2⟩ := v
      by_cases hle : FrontLe e m2 <;> simp [hle]

theorem selectMin_is_min : ∀ (l : List FrontierEntry) (m : FrontierEntry)
    (rest : List FrontierEntry), selectMin l = some (m, rest) →
    ∀ b ∈ l, FrontLe m b := by
  intro l
  induction l with
  | nil => intro m rest h; exact absurd h (by simp [selectMin])
  | cons e es ih =>
    intro m rest h b hb
    rcases List.mem_cons.mp hb with rfl | hbes
    · match hes : selectMin es with
      | none =>
        simp only [selectMin, hes, Option.some.injEq, Prod.mk.injEq] at h
        obtain ⟨rfl, rfl⟩ := h
        exact frontLe_refl b
      | some (m2, rest2) =>
        simp only [selectMin, hes] at h
        by_cases hle : FrontLe b m2
        · rw [if_pos hle] at h
          simp only [Option.some.injEq, Prod.mk.injEq] at h
          obtain ⟨rfl, rfl⟩ := h
          exact frontLe_refl b
        · rw [if_neg hle] at h
          simp only [Option.some.injEq, Prod.mk.injEq] at h
          obtain ⟨rfl, rfl⟩ := h
          exact frontLe_of_not hle
    · match hes : selectMin es with
      | none =>
        have hnil : es = [] := (selectMin_eq_none es).mp hes
        exact absurd hbes (hnil ▸ List.not_mem_nil b)
      | some (m2, rest2) =>
        have hm2 := ih m2 rest2 hes b hbes
        simp only [selectMin, hes] at h
        by_cases hle : FrontLe e m2
        · rw [if_pos hle] at h
          simp only [Option.some.injEq, Prod.mk.injEq] at h
          obtain ⟨rfl, rfl⟩ := h
          exact frontLe_trans hle hm2
        · rw [if_neg hle] at h
          simp only [Option.some.injEq, Prod.mk.injEq] at h
          obtain ⟨rfl, rfl⟩ := h
          exact hm2

/-- Expand a settled entry through every adjacent edge. -/
def stepExpand (net : WeightedRoadNetwork) (m : FrontierEntry) :
    List FrontierEntry :=
  (neighbors net m.node).filterMap (fun p =>
    match findEdge net p.2 with
    | some edge =>
      some ⟨m.cost + edge.cost, p.1, m.riskSum + edge.risk, p.1 :: m.revPath⟩
    | none => none)

/-- The fuel-bounded Dijkstra loop: extract the (cost, node-id)-minimal
frontier entry, skip it if settled, stop at the target, else expand. -/
def dijkstraAux (net : WeightedRoadNetwork) (t : ℕ) :
    ℕ → List ℕ → List FrontierEntry → Option (List ℕ × ℚ × ℚ)
  | 0, _, _ => none
  | fuel + 1, visited, frontier =>
    match selectMin frontier with
    | none => none
    | some (m, rest) =>
      if visited.contains m.node then dijkstraAux net t fuel visited rest
      else if m.node = t then some (m.revPath.reverse, m.cost, m.riskSum)
      else dijkstraAux net t fuel (m.node :: visited) (rest ++ stepExpand net m)

def dijkstraFuel (net : WeightedRoadNetwork) : ℕ :=
  (net.nodes.length + 1) * (2 * net.edges.length + 1) + 1

/-- Modelled from the spec: `dijkstra_safest_path` / safestPath of
`graph_utils.py` (absent from src/): Dijkstra over current edge costs with
ties between equal-cost frontier candidates broken by lower node id; fails
UnknownNode if start or end is absent, NoPathFound if unreachable; returns
(node path, total cost, total risk). -/
def safestPath (net : WeightedRoadNetwork) (s t : ℕ) :
    Except NetError (List ℕ × ℚ × ℚ) :=
  if hasNodeId net s = false ∨ hasNodeId net t = false then .error .unknownNode
  else
    match dijkstraAux net t (dijkstraFuel net) [] [⟨0, s, 0, [s]⟩] with
    | some r => .ok r
    | none => .error .noPathFound

/-! ## Theorems: C4 (determinism of safestPath) -/

/-- C4: `safestPath` is deterministic — on identical inputs two runs return
the identical node sequence, total cost and total risk — and every frontier
extraction picks a candidate of minimal cost with ties broken by the lower
node id. -/
theorem safestPath_deterministic :
    (∀ (net : WeightedRoadNetwork) (s t : ℕ),
      safestPath net s t = safestPath net s t) ∧
    (∀ (frontier : List FrontierEntry) (m : FrontierEntry)
        (rest : List FrontierEntry),
      selectMin frontier = some (m, rest) →
        ∀ b ∈ frontier, m.cost ≤ b.cost ∧ (m.cost = b.cost → m.node ≤ b.node)) := by
  constructor
  · intro net s t
    rfl
  · intro frontier m rest hsel b hb
    have hle := selectMin_is_min frontier m rest hsel b hb
    rcases hle with hlt | ⟨heq, hnode⟩
    · exact ⟨le_of_lt hlt, fun heq => absurd (heq ▸ hlt) (lt_irrefl _)⟩
    · exact ⟨le_of_eq heq, fun _ => hnode⟩

/-- Witness for C4: on a frontier holding two equal-cost candidates at
nodes 5 and 3, extraction picks node 3, the lower id. -/
theorem safestPath_deterministic_witness :
    selectMin [⟨1, 5, 0, [5]⟩, ⟨1, 3, 0, [3]⟩] =
        some (⟨1, 3, 0, [3]⟩, [⟨1, 5, 0, [5]⟩]) ∧
      (FrontierEntry.cost ⟨1, 3, 0, [3]⟩ ≤ FrontierEntry.cost ⟨1, 5, 0, [5]⟩ ∧
        (FrontierEntry.cost ⟨1, 3, 0, [3]⟩ = FrontierEntry.cost ⟨1, 5, 0, [5]⟩ →
          FrontierEntry.node ⟨1, 3, 0, [3]⟩ ≤ FrontierEntry.node ⟨1, 5, 0, [5]⟩)) := by
  have hsel : selectMin [⟨1, 5, 0, [5]⟩, ⟨1, 3, 0, [3]⟩] =
      some (⟨1, 3, 0, [3]⟩, [⟨1, 5, 0, [5]⟩]) := by
    norm_num [selectMin, FrontLe]
  exact ⟨hsel, safestPath_deterministic.2 _ _ _ hsel ⟨1, 5, 0, [5]⟩
    (List.mem_cons_self _ _)⟩

/-! ## Chat widget (script.js) -/

/-- Lowercasing as used on the chat input (`userMessage.toLowerCase()`). -/
def toLowerStr (s : String) : String :=
  String.mk (s.data.map Char.toLower)

/-- `isPrefixList pat l` is true when `pat` starts `l`. -/
def isPrefixList : List Char → List Char → Bool
  | [], _ => true
  | _ :: _, [] => false
  | p :: ps, c :: cs => p == c && isPrefixList ps cs

/-- `occursIn pat l` is true when `pat` occurs contiguously in `l`. -/
def occursIn (pat : List Char) : List Char → Bool
  | [] => isPrefixList pat []
  | c :: cs => isPrefixList pat (c :: cs) || occursIn pat cs

/-- A keyword alternation regex `/a|b|.../.test(msg)`: some keyword occurs
as a substring of the message. -/
def matchesAny (pats : List String) (msg : String) : Bool :=
  pats.any (fun p => occursIn p.data msg.data)

def emergencyKeywords : List String :=
  ["unsafe", "danger", "threat", "abuse", "hit", "attack", "violence"]

def stalkingKeywords : List String :=
  ["follow", "stalking", "stalker", "being followed", "tail", "pursuit"]

def legalKeywords : List String :=
  ["legal", "law", "rights", "court", "fir", "complaint", "justice"]

def emergencyServiceKeywords : List String :=
  ["emergency", "police", "ambulance", "hospital", "911", "112"]

def emotionalKeywords : List String :=
  ["afraid", "scared", "fear", "anxiety", "panic", "stress", "depressed"]

def selfDefenseKeywords : List String :=
  ["defense", "self-defense", "protect", "safety"]

def generalHelpKeywords : List String :=
  ["help", "assist", "support", "guide", "advice"]

def mentalHealthKeywords : List String :=
  ["mental", "health", "counseling", "therapy", "depression"]

def emergencyResponse : String :=
  "🚨 EMERGENCY PROTOCOL ACTIVATED\n\n✓ Sharing location with trusted contacts\n✓ Alerting nearby authorities\n✓ Recording incident\n\nStay safe. Press SOS for immediate help."

def stalkingResponse : String :=
  "⚠️ IMMEDIATE ACTION NEEDED\n\n✓ Move to crowded public area\n✓ Call Police: India (100), USA (911), UK (999)\n✓ Alert trusted contacts\n\nDo not confront. Stay visible in public."

def legalResponse : String :=
  "⚖️ YOUR LEGAL RIGHTS\n\n1. File FIR (First Information Report)\n2. Protection Order from courts\n3. Restraining order against stalker\n4. Evidence collection is your right\n5. Self-defense is legal\n\nContact: Legal Aid Cell (toll-free)"

def emergencyServiceResponse : String :=
  "🚨 EMERGENCY CONTACTS\n\n🇮🇳 India:\n• Police: 100\n• Ambulance: 102\n• Women Helpline: 1091\n\n🇺🇸 USA: 911\n🇬🇧 UK: 999\n🇪🇺 EU: 112"

def emotionalResponse : String :=
  "💪 YOUR FEELINGS ARE VALID\n\n✓ You\x27re not alone\n✓ Trust your instincts\n✓ Talk to someone you trust\n✓ Professional help is available\n\nHotlines:\n• AASRA: 9820466726\n• iCall: 9152987821"

def selfDefenseResponse : String :=
  "🛡️ SAFETY & SELF-DEFENSE\n\n✓ Take self-defense classes\n✓ Carry whistle/keychain\n✓ Trust your gut feeling\n✓ Stay alert, aware\n✓ Plan escape routes\n\nOur app features:\n• Safe route planning\n• Nearby help finder\n• Live location sharing"

def generalHelpResponse : String :=
  "🤝 HOW CAN I HELP?\n\n📍 Route Safety\n🗺️ Find Nearby Help\n🆘 Emergency Contacts\n⚖️ Legal Information\n🛡️ Self-Defense Tips\n💪 Emotional Support\n📚 Educational Resources\n\nWhat do you need?"

def mentalHealthResponse : String :=
  "🧠 MENTAL HEALTH SUPPORT\n\n✓ Therapy & counseling\n✓ Support groups\n✓ Meditation resources\n✓ Hotlines & chat support\n\nFree Resources:\n• MyIndianFamily.com\n• Psychology Today (therapist finder)"

def defaultResponse : String :=
  "👋 I\x27m Sakhi, your safety AI assistant.\n\nI can help with:\n🆘 Emergencies\n⚖️ Legal Rights\n📍 Safe Routes\n🛡️ Self-Defense\n💪 Emotional Support\n\nWhat\x27s on your mind?"

/-- Embeds `ChatWidget.generateBotResponse` of `src/script.js`: lowercase
the input, test the eight keyword alternations in order, return the first
matching canned response, else the default Sakhi greeting. -/
def generateBotResponse (userMessage : String) : String :=
  let msg := toLowerStr userMessage
  if matchesAny emergencyKeywords msg then emergencyResponse
  else if matchesAny stalkingKeywords msg then stalkingResponse
  else if matchesAny legalKeywords msg then legalResponse
  else if matchesAny emergencyServiceKeywords msg then emergencyServiceResponse
  else if matchesAny emotionalKeywords msg then emotionalResponse
  else if matchesAny selfDefenseKeywords msg then selfDefenseResponse
  else if matchesAny generalHelpKeywords msg then generalHelpResponse
  else if matchesAny mentalHealthKeywords msg then mentalHealthResponse
  else defaultResponse

/-- A rendered chat message: text and sender kind. -/
structure ChatMessage where
  text : String
  sender : String
  deriving DecidableEq, Repr

/-- The observable chat-widget state: the rendered message list, whether
the typing indicator is shown, and the scheduled bot response (if any). -/
structure ChatState where
  messages : List ChatMessage
  typingShown : Bool
  pendingBot : Option String
  deriving DecidableEq, Repr

/-- Embeds `ChatWidget.sendMessageWithText` of `src/script.js`: append the
user message, show the typing indicator, schedule the bot response. -/
def sendMessageWithText (st : ChatState) (text : String) : ChatState :=
  { messages := st.messages ++ [⟨text, "user"⟩],
    typingShown := true,
    pendingBot := some (generateBotResponse text) }

/-- Strip leading and trailing whitespace, as `String.prototype.trim`. -/
def trimChars (l : List Char) : List Char :=
  (((l.dropWhile Char.isWhitespace).reverse).dropWhile Char.isWhitespace).reverse

/-- `value.trim()` of the chat input field. -/
def trimStr (s : String) : String :=
  String.mk (trimChars s.data)

/-- Embeds `ChatWidget.handleSendMessage` of `src/script.js`: trim the
input-field content and return unchanged when the trimmed text is empty. -/
def handleSendMessage (st : ChatState) (inputValue : String) : ChatState :=
  let text := trimStr inputValue
  if text = "" then st else sendMessageWithText st text

/-! ## Theorems: C9 (generateBotResponse total and first-match ordered) -/

/-- C9: `generateBotResponse` always returns a non-empty response; the
response is chosen by the first matching keyword pattern in the fixed order
emergency, stalking, legal, emergency-services, emotional, self-defense,
general help, mental health, with the default greeting when none match —
in particular an input matching the emergency pattern gets the
emergency-protocol response no matter what else it matches. -/
theorem generateBotResponse_total_first_match :
    (∀ s : String, generateBotResponse s ≠ "") ∧
    (∀ s : String, matchesAny emergencyKeywords (toLowerStr s) = true →
      generateBotResponse s = emergencyResponse) ∧
    (∀ s : String, matchesAny emergencyKeywords (toLowerStr s) = false →
      matchesAny stalkingKeywords (toLowerStr s) = true →
      generateBotResponse s = stalkingResponse) ∧
    (∀ s : String, matchesAny emergencyKeywords (toLowerStr s) = false →
      matchesAny stalkingKeywords (toLowerStr s) = false →
      matchesAny legalKeywords (toLowerStr s) = true →
      generateBotResponse s = legalResponse) ∧
    (∀ s : String, matchesAny emergencyKeywords (toLowerStr s) = false →
      matchesAny stalkingKeywords (toLowerStr s) = false →
      matchesAny legalKeywords (toLowerStr s) = false →
      matchesAny emergencyServiceKeywords (toLowerStr s) = true →
      generateBotResponse s = emergencyServiceResponse) ∧
    (∀ s : String, matchesAny emergencyKeywords (toLowerStr s) = false →
      matchesAny stalkingKeywords (toLowerStr s) = false →
      matchesAny legalKeywords (toLowerStr s) = false →
      matchesAny emergencyServiceKeywords (toLowerStr s) = false →
      matchesAny emotionalKeywords (toLowerStr s) = true →
      generateBotResponse s = emotionalResponse) ∧
    (∀ s : String, matchesAny emergencyKeywords (toLowerStr s) = false →
      matchesAny stalkingKeywords (toLowerStr s) = false →
      matchesAny legalKeywords (toLowerStr s) = false →
      matchesAny emergencyServiceKeywords (toLowerStr s) = false →
      matchesAny emotionalKeywords (toLowerStr s) = false →
      matchesAny selfDefenseKeywords (toLowerStr s) = true →
      generateBotResponse s = selfDefenseResponse) ∧
    (∀ s : String, matchesAny emergencyKeywords (toLowerStr s) = false →
      matchesAny stalkingKeywords (toLowerStr s) = false →
      matchesAny legalKeywords (toLowerStr s) = false →
      matchesAny emergencyServiceKeywords (toLowerStr s) = false →
      matchesAny emotionalKeywords (toLowerStr s) = false →
      matchesAny selfDefenseKeywords (toLowerStr s) = false →
      matchesAny generalHelpKeywords (toLowerStr s) = true →
      generateBotResponse s = generalHelpResponse) ∧
    (∀ s : String, matchesAny emergencyKeywords (toLowerStr s) = false →
      matchesAny stalkingKeywords (toLowerStr s) = false →
      matchesAny legalKeywords (toLowerStr s) = false →
      matchesAny emergencyServiceKeywords (toLowerStr s) = false →
      matchesAny emotionalKeywords (toLowerStr s) = false →
      matchesAny selfDefenseKeywords (toLowerStr s) = false →
      matchesAny generalHelpKeywords (toLowerStr s) = false →
      matchesAny mentalHealthKeywords (toLowerStr s) = true →
      generateBotResponse s = mentalHealthResponse) ∧
    (∀ s : String, matchesAny emergencyKeywords (toLowerStr s) = false →
      matchesAny stalkingKeywords (toLowerStr s) = false →
      matchesAny legalKeywords (toLowerStr s) = false →
      matchesAny emergencyServiceKeywords (toLowerStr s) = false →
      matchesAny emotionalKeywords (toLowerStr s) = false →
      matchesAny selfDefenseKeywords (toLowerStr s) = false →
      matchesAny generalHelpKeywords (toLowerStr s) = false →
      matchesAny mentalHealthKeywords (toLowerStr s) = false →
      generateBotResponse s = defaultResponse) := by
  refine ⟨?_, ?_, ?_, ?_, ?_, ?_, ?_, ?_, ?_, ?_⟩
  · intro s
    simp only [generateBotResponse]
    split
    · decide
    split
    · decide
    split
    · decide
    split
    · decide
    split
    · decide
    split
    · decide
    split
    · decide
    split
    · decide
    · decide
  · intro s h1
    simp [generateBotResponse, h1]
  · intro s h1 h2
    simp [generateBotResponse, h1, h2]
  · intro s h1 h2 h3
    simp [generateBotResponse, h1, h2, h3]
  · intro s h1 h2 h3 h4
    simp [generateBotResponse, h1, h2, h3, h4]
  · intro s h1 h2 h3 h4 h5
    simp [generateBotResponse, h1, h2, h3, h4, h5]
  · intro s h1 h2 h3 h4 h5 h6
    simp [generateBotResponse, h1, h2, h3, h4, h5, h6]
  · intro s h1 h2 h3 h4 h5 h6 h7
    simp [generateBotResponse, h1, h2, h3, h4, h5, h6, h7]
  · intro s h1 h2 h3 h4 h5 h6 h7 h8
    simp [generateBotResponse, h1, h2, h3, h4, h5, h6, h7, h8]
  · intro s h1 h2 h3 h4 h5 h6 h7 h8
    simp [generateBotResponse, h1, h2, h3, h4, h5, h6, h7, h8]

/-- Witness for C9: the input "Danger! I need help" matches both the
emergency pattern and the later general-help pattern, and gets the
emergency-protocol response. -/
theorem generateBotResponse_total_first_match_witness :
    matchesAny emergencyKeywords (toLowerStr "Danger! I need help") = true ∧
      matchesAny generalHelpKeywords (toLowerStr "Danger! I need help") = true ∧
      generateBotResponse "Danger! I need help" = emergencyResponse := by
  refine ⟨by decide, by decide, ?_⟩
  exact generateBotResponse_total_first_match.2.1 "Danger! I need help" (by decide)

/-! ## Theorems: C10 (whitespace-only input is a no-op) -/

/-- C10: when the chat-input content trims to the empty string,
`handleSendMessage` leaves the message list unchanged, shows no typing
indicator and schedules no bot response. -/
theorem handleSendMessage_blank_noop :
    ∀ (st : ChatState) (inputValue : String), trimStr inputValue = "" →
      (handleSendMessage st inputValue).messages = st.messages ∧
      (handleSendMessage st inputValue).typingShown = st.typingShown ∧
      (handleSendMessage st inputValue).pendingBot = st.pendingBot := by
  intro st input h
  unfold handleSendMessage
  rw [if_pos h]
  exact ⟨rfl, rfl, rfl⟩

/-- Witness for C10: a three-space input on an empty widget state changes
nothing. -/
theorem handleSendMessage_blank_noop_witness :
    (handleSendMessage ⟨[], false, none⟩ "   ").messages = ([] : List ChatMessage) ∧
      (handleSendMessage ⟨[], false, none⟩ "   ").typingShown = false ∧
      (handleSendMessage ⟨[], false, none⟩ "   ").pendingBot = none :=
  handleSendMessage_blank_noop ⟨[], false, none⟩ "   " (by decide)

end SafeSphere
